import Mathlib

/-!
Verification of the reference-record codec and section editor of
`src/main.ts` (Reference Automator).  The document is modelled as an
ordered list of lines (`List String`); the editor's
`getValue`/`split('\n')`/`join('\n')` round trip and `replaceRange`
position semantics are reflected at that level.  String-processing
primitives of JavaScript (`split`, `trim`, `includes`, `startsWith`,
`repeat`, and the concrete regular expressions used by the plugin) are
embedded as executable functions on `List Char`.
-/

namespace Refero

/-- JavaScript whitespace characters relevant to `trim` and `\s`
(the plugin's data only ever uses the plain space). -/
def isJsSpace (c : Char) : Bool :=
  c = ' ' || c = '\t' || c = '\n' || c = '\r' || c = '\x0b' || c = '\x0c'

/-- JavaScript `s.split(sep)` for a one-character separator, at the
character-list level. -/
def splitOnC (c : Char) : List Char → List (List Char)
  | [] => [[]]
  | x :: xs =>
    if x = c then [] :: splitOnC c xs
    else (splitOnC c xs).modifyHead (x :: ·)

/-- JavaScript `s.trim()` on a character list. -/
def trimL (l : List Char) : List Char :=
  ((l.dropWhile isJsSpace).reverse.dropWhile isJsSpace).reverse

/-- JavaScript `s.trim()` on strings. -/
def jsTrim (s : String) : String := (trimL s.toList).asString

/-- JavaScript `s.startsWith(p)`. -/
def jsStartsWith (s p : String) : Bool := p.toList.isPrefixOf s.toList

/-- Substring containment on character lists: the needle occurs as a
prefix of some suffix. -/
def isSubL (needle : List Char) : List Char → Bool
  | [] => needle.isEmpty
  | x :: rest => needle.isPrefixOf (x :: rest) || isSubL needle rest

/-- JavaScript `s.includes(p)` (substring containment). -/
def jsIncludes (s p : String) : Bool := isSubL p.toList s.toList

/-- One entry of the `TYPE_OPTIONS` / `STATUS_ORDER` catalogs of
`src/main.ts` (a stable key, a display label and an icon glyph). -/
structure CatEntry where
  key : String
  label : String
  icon : String
deriving DecidableEq

/-- `TYPE_OPTIONS` from `src/main.ts` lines 21-29. -/
def TYPE_OPTIONS : List CatEntry := [
  ⟨"plain-note", "Obsidian Note", "📄"⟩,
  ⟨"web-page", "Web Page", "🌐"⟩,
  ⟨"video", "Video", "🎥"⟩,
  ⟨"course", "Course", "🎓"⟩,
  ⟨"textbook", "Textbook", "📚"⟩,
  ⟨"repository", "Repository", "💻"⟩,
  ⟨"other", "Other", "📦"⟩]

/-- `STATUS_ORDER` from `src/main.ts` lines 31-39 (the order is
semantically meaningful: status advance is cyclic over it). -/
def STATUS_ORDER : List CatEntry := [
  ⟨"saved", "Saved/Unprocessed", "📥"⟩,
  ⟨"skimmed", "Skimmed", "🔍"⟩,
  ⟨"in-progress", "In Progress", "🔄"⟩,
  ⟨"to-review", "To Review", "⏳"⟩,
  ⟨"completed", "Completed", "✅"⟩,
  ⟨"maybe-useful", "Maybe Useful", "🤔"⟩,
  ⟨"needs-review", "Needs Review", "❗"⟩]

/-- The keys of the type catalog. -/
def typeKeys : List String := TYPE_OPTIONS.map (·.key)

/-- The keys of the status catalog. -/
def statusKeys : List String := STATUS_ORDER.map (·.key)

/-- `getStatusInfo` from `src/main.ts` lines 41-43: lookup by key with
fallback to the first entry. -/
def getStatusInfo (key : String) : CatEntry :=
  (STATUS_ORDER.find? (fun s => s.key == key)).getD (STATUS_ORDER.getD 0 ⟨"", "", ""⟩)

/-- `getTypeInfo` from `src/main.ts` lines 44-46: lookup by key with
fallback to the first entry. -/
def getTypeInfo (key : String) : CatEntry :=
  (TYPE_OPTIONS.find? (fun t => t.key == key)).getD (TYPE_OPTIONS.getD 0 ⟨"", "", ""⟩)

/-- The `ReferenceData` record of `src/main.ts` lines 13-19. -/
structure Ref where
  type : String
  title : String
  url : String
  status : String
  stars : Nat
deriving DecidableEq

/-! ### Encoding (`starString`, `buildLine`) -/

/-- JavaScript `String.prototype.repeat` of a single character:
throws a `RangeError` on a negative count, modelled as `none`. -/
def jsRepeat (c : Char) (k : Int) : Option (List Char) :=
  if k < 0 then none else some (List.replicate k.toNat c)

/-- `starString` from `src/main.ts` lines 902-904:
`n === 0 ? '⚪ Not Rated' : '★'.repeat(n) + '☆'.repeat(5 - n)`.
For `n > 5` the second `repeat` receives a negative count and throws,
hence the `Option`. -/
def starString (n : Nat) : Option String :=
  if n = 0 then some "⚪ Not Rated"
  else
    match jsRepeat '★' (n : Int), jsRepeat '☆' (5 - (n : Int)) with
    | some a, some b => some ((a ++ b).asString)
    | _, _ => none

/-- `url.replace(/\.md$/, '')` from `src/main.ts` line 918. -/
def stripMdExt (u : String) : String :=
  if (".md".toList).isSuffixOf u.toList then ((u.toList).take (u.toList.length - 3)).asString
  else u

/-- The link expression computed by `buildLine` (`src/main.ts` lines
911-931).  The vault file resolver (`getAbstractFileByPath` plus
`TFile.basename`) is the external collaborator `resolve`, mapping a
path to the note's base name when the file exists. -/
def linkOf (resolve : String → Option String) (d : Ref) : String :=
  if d.type = "plain-note" ∧ d.url ≠ "" then
    match resolve d.url with
    | some noteName =>
      let linkPath := stripMdExt d.url
      if jsTrim d.title = noteName then "[[" ++ linkPath ++ "]]"
      else "[[" ++ linkPath ++ "|" ++ d.title ++ "]]"
    | none => "[" ++ d.title ++ "](" ++ d.url ++ ")"
  else if d.url ≠ "" then "[" ++ d.title ++ "](" ++ d.url ++ ")"
  else d.title

/-- The detail line built by `buildLine` (`src/main.ts` line 933):
`<type icon> <type label> | <status icon> **<status label>** | <stars>`.
`none` exactly when `starString` throws. -/
def detailStr (ty st : String) (n : Nat) : Option String :=
  (starString n).map (fun stars =>
    (getTypeInfo ty).icon ++ " " ++ (getTypeInfo ty).label ++ " | " ++
    (getStatusInfo st).icon ++ " **" ++ (getStatusInfo st).label ++ "** | " ++ stars)

/-- `buildLine` from `src/main.ts` lines 906-934, returning the
header/detail pair (the source returns them joined with a single
`'\n'`, see `buildLine`). -/
def buildLines (resolve : String → Option String) (d : Ref) : Option (String × String) :=
  (detailStr d.type d.status d.stars).map (fun dl => ("### " ++ linkOf resolve d, dl))

/-- The exact return value of the source's `buildLine`: the two lines
joined with a newline. -/
def buildLine (resolve : String → Option String) (d : Ref) : Option String :=
  (buildLines resolve d).map (fun p => p.1 ++ "\n" ++ p.2)

/-! ### Decoding (the prefill parsing of `ReferenceModal.onOpen`,
`src/main.ts` lines 434-489) -/

/-- Leftmost-match scan of a fixed-pattern matcher over every start
position, as a JavaScript regex engine does. -/
def scanFor (m : List Char → Option α) : List Char → Option α
  | [] => m []
  | x :: rest =>
    match m (x :: rest) with
    | some r => some r
    | none => scanFor m rest

/-- Match of `/\[\[([^\]]+)(?:\|([^\]]+))?\]\]/` at the current
position (`src/main.ts` line 442).  The greedy `[^\]]+` consumes the
whole bracket-free run (including any `|`), after which the optional
alias group can only match empty, so the second capture is never
produced; the regex matches exactly `[[` + nonempty `]`-free run +
`]]` and captures the run. -/
def internalAt : List Char → Option (List Char)
  | '[' :: '[' :: rest =>
    let cap := rest.takeWhile (· ≠ ']')
    if cap = [] then none
    else
      match rest.drop cap.length with
      | ']' :: ']' :: _ => some cap
      | _ => none
  | _ => none

/-- The lazy `(.*?)\)` tail of the markdown-link regex: the (possibly
empty) run of non-newline characters before the first `)`. -/
def upToParen : List Char → Option (List Char)
  | [] => none
  | c :: rest =>
    if c = ')' then some []
    else if c = '\n' then none
    else (upToParen rest).map (c :: ·)

/-- Match of `/\[([^\]]+)\]\((.*?)\)/` at the current position
(`src/main.ts` line 450), capturing title and url. -/
def mdLinkAt : List Char → Option (List Char × List Char)
  | '[' :: rest =>
    let cap := rest.takeWhile (· ≠ ']')
    if cap = [] then none
    else
      match rest.drop cap.length with
      | ']' :: '(' :: rest2 => (upToParen rest2).map (fun u => (cap, u))
      | _ => none
  | _ => none

/-- `firstPart.replace(/^###\s*/, '')` from `src/main.ts` line 456. -/
def stripHashes (l : List Char) : List Char :=
  match l with
  | '#' :: '#' :: '#' :: rest => rest.dropWhile isJsSpace
  | _ => l

/-- `linkPath.split('/').pop() || linkPath` from `src/main.ts` line 445. -/
def lastSegment (p : List Char) : List Char :=
  match (splitOnC '/' p).getLast? with
  | some s => if s = [] then p else s
  | none => p

/-- Match of `/^(\S+)/` (`src/main.ts` line 464): the leading nonempty
run of non-whitespace characters. -/
def firstTok (l : List Char) : Option (List Char) :=
  match l.takeWhile (fun c => !isJsSpace c) with
  | [] => none
  | t => some t

/-- Match of `/\*\*([^*]+)\*\*/` at the current position
(`src/main.ts` line 475): `**` + nonempty `*`-free run + `**`. -/
def starStarAt : List Char → Option (List Char)
  | '*' :: '*' :: rest =>
    let cap := rest.takeWhile (· ≠ '*')
    if cap = [] then none
    else
      match rest.drop cap.length with
      | '*' :: '*' :: _ => some cap
      | _ => none
  | _ => none

/-- Title and url extraction from the first `|`-separated part
(`src/main.ts` lines 438-459): internal-link pattern, then markdown
link pattern, then plain text with the heading marker stripped.  The
modal's fields start out empty, so the defaults are `""`. -/
def decTitleUrl (firstPart : List Char) : List Char × List Char :=
  match scanFor internalAt firstPart with
  | some path =>
    (lastSegment path,
     path ++ (if (".md".toList).isSuffixOf path then [] else ".md".toList))
  | none =>
    match scanFor mdLinkAt firstPart with
    | some tu => tu
    | none => (stripHashes firstPart, [])

/-- Type extraction (`src/main.ts` lines 462-470): leading glyph token
of part 1, reverse lookup by icon; the type select keeps its initial
value `plain-note` (the first catalog entry) when anything is absent. -/
def decTy (parts : List (List Char)) : String :=
  match parts[1]? with
  | some tp =>
    match firstTok tp with
    | some tok =>
      match TYPE_OPTIONS.find? (fun o => o.icon.toList == tok) with
      | some o => o.key
      | none => "plain-note"
    | none => "plain-note"
  | none => "plain-note"

/-- Status extraction (`src/main.ts` lines 473-481): first
emphasis-wrapped run of part 2, reverse lookup by label; the status
select keeps its initial value `saved` (the first catalog entry)
when anything is absent. -/
def decSt (parts : List (List Char)) : String :=
  match parts[2]? with
  | some sp =>
    match scanFor starStarAt sp with
    | some lab =>
      match STATUS_ORDER.find? (fun o => o.label.toList == lab) with
      | some o => o.key
      | none => "saved"
    | none => "saved"
  | none => "saved"

/-- Rating extraction (`src/main.ts` lines 484-489):
`(ratingPart.match(/★/g) || []).length`, with the rating left at its
initial value 0 when part 3 is absent.  No upper clamp. -/
def decRt (parts : List (List Char)) : Nat :=
  match parts[3]? with
  | some rp => rp.count '★'
  | none => 0

/-- The prefill parsing of `ReferenceModal.onOpen` (`src/main.ts`
lines 434-489): split the line on `|`, trim every part, then extract
title/url, type, status and rating independently, each falling back to
its default. -/
def parsePrefillL (l : List Char) : Ref :=
  let parts := (splitOnC '|' l).map trimL
  let tu := decTitleUrl (parts.headD [])
  ⟨decTy parts, tu.1.asString, tu.2.asString, decSt parts, decRt parts⟩

/-- The prefill parsing on strings. -/
def parsePrefill (s : String) : Ref := parsePrefillL s.toList

/-- Decoding a two-line record span.  The prefill parser of the source
indexes the `|`-separated fields of a single string as
link, type, status, rating — i.e. it expects the span with its two
lines joined by the detail separator `" | "` — so a span decodes by
feeding the parser that joined form. -/
def decodeRecord (h d : String) : Ref := parsePrefill (h ++ " | " ++ d)

/-! ### Status advance (`cycle-ref-status`, `src/main.ts` lines 108-129) -/

/-- The lazy `.+?\*\*` tail of the status-rewrite regex: the number of
(non-newline) characters, at least one, consumed before the first
following `**`. -/
def findClose : List Char → Option Nat
  | [] => none
  | c :: rest =>
    if c = '\n' then none
    else
      match rest with
      | '*' :: '*' :: _ => some 1
      | _ => (findClose rest).map (· + 1)

/-- Match of `/\|\s+\S+\s+\*\*.+?\*\*/` at the current position
(`src/main.ts` line 125), returning the match length.  The greedy
`\s+`/`\S+` runs are forced (shortening any of them puts the follow-up
token on a character it cannot match), so maximal munch is exact. -/
def matchStatusAt (l : List Char) : Option Nat :=
  match l with
  | '|' :: r1 =>
    let ws1 := r1.takeWhile isJsSpace
    if ws1 = [] then none
    else
      let r2 := r1.drop ws1.length
      let tok := r2.takeWhile (fun c => !isJsSpace c)
      if tok = [] then none
      else
        let r3 := r2.drop tok.length
        let ws2 := r3.takeWhile isJsSpace
        if ws2 = [] then none
        else
          match r3.drop ws2.length with
          | '*' :: '*' :: r5 =>
            (findClose r5).map (fun k => 1 + ws1.length + tok.length + ws2.length + 2 + k + 2)
          | _ => none
  | _ => none

/-- Non-global `String.prototype.replace`: substitute the leftmost
match of the status pattern, leave the string unchanged when there is
none. -/
def replaceScan (repl : List Char) : List Char → List Char
  | [] => []
  | x :: rest =>
    match matchStatusAt (x :: rest) with
    | some len => repl ++ (x :: rest).drop len
    | none => x :: replaceScan repl rest

/-- Rewrite of the status sub-span with a given catalog entry:
`line.replace(/\|\s+\S+\s+\*\*.+?\*\*/, `| ${next.icon} **${next.label}**`)`
(`src/main.ts` line 125). -/
def statusRewrite (next : CatEntry) (line : String) : String :=
  (replaceScan ("| " ++ next.icon ++ " **" ++ next.label ++ "**").toList line.toList).asString

/-- The `cycle-ref-status` line transformation (`src/main.ts` lines
123-125): find the current status by searching the line for each
emphasis-wrapped label (`findIndex`, -1 when absent), advance to
`(currIdx + 1) % STATUS_ORDER.length`, and rewrite the status
sub-span.  The computed index is always in range, so the list access
never falls back. -/
def advanceStatus (line : String) : String :=
  let currIdx : Int :=
    match STATUS_ORDER.findIdx? (fun s => jsIncludes line ("**" ++ s.label ++ "**")) with
    | some i => (i : Int)
    | none => -1
  let next := STATUS_ORDER.getD ((currIdx + 1) % (STATUS_ORDER.length : Int)).toNat ⟨"", "", ""⟩
  statusRewrite next line

/-- The status following `s` in the fixed cyclic order (the spec-side
companion of `advanceStatus`: position of `s`, plus one, modulo 7). -/
def nextStatus (s : CatEntry) : CatEntry :=
  match STATUS_ORDER.findIdx? (fun x => x == s) with
  | some i => STATUS_ORDER.getD ((i + 1) % STATUS_ORDER.length) ⟨"", "", ""⟩
  | none => STATUS_ORDER.getD 0 ⟨"", "", ""⟩

/-- A well-formed detail line for a type entry, a status entry and a
rating (the shape emitted by `buildLine`). -/
def mkDetail (t s : CatEntry) (n : Nat) : String :=
  t.icon ++ " " ++ t.label ++ " | " ++ s.icon ++ " **" ++ s.label ++ "** | " ++
  (starString n).getD ""

/-! ### Deletion (`delete-reference`, `src/main.ts` lines 88-106) -/

/-- The `delete-reference` edit (`src/main.ts` line 103):
`replaceRange('', { line: k, ch: 0 }, { line: k + 1, ch: 0 })` removes
the text from the start of line `k` to the start of line `k + 1`,
i.e. exactly line `k` together with its terminating newline. -/
def deleteReference (lines : List String) (k : Nat) : List String :=
  lines.take k ++ lines.drop (k + 1)

/-! ### Insertion (`insertLine`, `src/main.ts` lines 936-957) -/

/-- The `/## References/` pattern test on one line (`src/main.ts`
lines 939 and 944; the pattern has no metacharacters, so it is a
substring test, and a document contains it iff some line does since it
has no newline). -/
def hasRefHeading (l : String) : Bool := jsIncludes l "## References"

/-- The insertion-point loop of `insertLine` (`src/main.ts` lines
945-952), rendered structurally on the lines after the section
heading: skip a maximal run of header lines each with an optionally
attached non-header nonblank detail line, and return how many lines
were skipped. -/
def countSkip : List String → Nat
  | [] => 0
  | l :: rest =>
    if jsStartsWith l "###" then
      match rest with
      | [] => 1
      | l2 :: rest2 =>
        if jsStartsWith l2 "###" = false ∧ jsTrim l2 ≠ "" then 2 + countSkip rest2
        else 1 + countSkip (l2 :: rest2)
    else 0

/-- `insertLine` from `src/main.ts` lines 936-957 at the lines level.
If no line contains the section heading, the source appends
`'\n## References\n'` at the end of the document text, which at the
lines level appends the heading line plus one empty line; it then
finds the first heading line (`findIndex`, -1 when absent), walks past
the existing record spans, and splices in the two encoded lines.
`none` exactly when `buildLine` throws. -/
def insertLines (resolve : String → Option String) (lines : List String) (d : Ref) :
    Option (List String) :=
  (buildLines resolve d).map (fun p =>
    let lines := if lines.any hasRefHeading then lines else lines ++ ["## References", ""]
    let hIdx : Int :=
      match lines.findIdx? hasRefHeading with
      | some i => (i : Int)
      | none => -1
    let pos := (hIdx + 1).toNat + countSkip (lines.drop (hIdx + 1).toNat)
    lines.take pos ++ [p.1, p.2] ++ lines.drop pos)

/-! ## Basic lemmas about the embedded string primitives -/

theorem toList_append (s t : String) : (s ++ t).toList = s.toList ++ t.toList := by
  simp [String.toList]

theorem toList_asString (l : List Char) : l.asString.toList = l := rfl

theorem asString_eq_empty_iff (l : List Char) : l.asString = "" ↔ l = [] := by
  constructor
  · intro h
    have : l.asString.toList = ("" : String).toList := by rw [h]
    simpa [toList_asString] using this
  · intro h; rw [h]; rfl

theorem splitOnC_append_not_mem (c : Char) (xs ys : List Char) (h : c ∉ xs) :
    splitOnC c (xs ++ ys) = (splitOnC c ys).modifyHead (xs ++ ·) := by
  induction xs with
  | nil => cases hys : splitOnC c ys <;> simp [List.modifyHead, hys]
  | cons x xs ih =>
    have hx : ¬x = c := fun hxc => h (hxc ▸ List.mem_cons_self x xs)
    have hxs : c ∉ xs := fun hm => h (List.mem_cons_of_mem x hm)
    rw [List.cons_append]
    show (if x = c then _ else (splitOnC c (xs ++ ys)).modifyHead (x :: ·)) = _
    rw [if_neg hx, ih hxs]
    cases splitOnC c ys <;> simp [List.modifyHead]

theorem splitOnC_sep (c : Char) (xs ys : List Char) (h : c ∉ xs) :
    splitOnC c (xs ++ c :: ys) = xs :: splitOnC c ys := by
  rw [splitOnC_append_not_mem c xs _ h]
  show (if c = c then [] :: splitOnC c ys else _).modifyHead _ = _
  rw [if_pos rfl]
  simp [List.modifyHead]

theorem splitOnC_single (c : Char) (l : List Char) (h : c ∉ l) : splitOnC c l = [l] := by
  have h2 := splitOnC_append_not_mem c l [] h
  simpa [splitOnC, List.modifyHead] using h2

theorem dropWhile_ne_nil_of_exists {p : Char → Bool} {l : List Char}
    (h : ∃ x ∈ l, p x = false) : l.dropWhile p ≠ [] := by
  intro hnil
  obtain ⟨x, hx, hpx⟩ := h
  have := List.dropWhile_eq_nil_iff.1 hnil x hx
  rw [this] at hpx
  exact Bool.noConfusion hpx

theorem trimL_cons_ne_nil {c : Char} (l : List Char) (hc : isJsSpace c = false) :
    trimL (c :: l) ≠ [] := by
  unfold trimL
  intro h
  have h2 : ((c :: l).dropWhile isJsSpace).reverse.dropWhile isJsSpace = [] := by
    simpa using congrArg List.reverse h
  have hdw : (c :: l).dropWhile isJsSpace = c :: l := by
    rw [List.dropWhile_cons, if_neg (by simp [hc])]
  rw [hdw] at h2
  exact dropWhile_ne_nil_of_exists ⟨c, by simp, hc⟩ h2

/-! ## C2: deletion -/

/-- C2 counterexample.  The claim states that the delete operation
removes the two lines `k` and `k + 1`; on the document
`["a", "### H", "detail", "b"]` with `k = 1` that would give
`["a", "b"]`, but the source's
`replaceRange('', {line: k, ch: 0}, {line: k + 1, ch: 0})` removes only
line `k`, yielding `["a", "detail", "b"]`. -/
theorem deleteReference_pair_cex :
    deleteReference ["a", "### H", "detail", "b"] 1 = ["a", "detail", "b"] ∧
    deleteReference ["a", "### H", "detail", "b"] 1 ≠ ["a", "b"] := by decide

/-- C2 amended: for every document and index `k` with at least two
lines at and after `k`, the delete operation removes exactly ONE line —
the header line `k` — and leaves every other line (including the
following detail line `k + 1`) and their relative order unchanged. -/
theorem deleteReference_removes_header_only (pre post : List String) (x y : String) :
    deleteReference (pre ++ x :: y :: post) pre.length = pre ++ y :: post := by
  unfold deleteReference
  have h1 : List.take pre.length (pre ++ x :: y :: post) = pre := List.take_left' rfl
  have h2 : List.drop (pre.length + 1) (pre ++ x :: y :: post) = y :: post := by
    have hsplit : pre ++ x :: y :: post = (pre ++ [x]) ++ y :: post := by simp
    rw [hsplit]
    exact List.drop_left' (by simp)
  rw [h1, h2]

/-! ## C5: status advance with no recognized label -/

/-- C5: on any line in which no known status label occurs
emphasis-wrapped (the `findIndex` search returns -1), `advanceStatus`
advances to ordinal `(-1 + 1) % 7 = 0` and therefore writes the FIRST
status entry (`saved` / `Saved/Unprocessed`) into the line's status
sub-span. -/
theorem advanceStatus_notfound_resets (line : String)
    (h : ∀ s ∈ STATUS_ORDER, jsIncludes line ("**" ++ s.label ++ "**") = false) :
    advanceStatus line = statusRewrite ⟨"saved", "Saved/Unprocessed", "📥"⟩ line := by
  have hnone : STATUS_ORDER.findIdx? (fun s => jsIncludes line ("**" ++ s.label ++ "**")) = none :=
    List.findIdx?_eq_none_iff.2 h
  unfold advanceStatus
  rw [hnone]
  rfl

/-- C5 witness: a well-shaped detail line with the unknown label
`Bogus` is rewritten to the first status entry. -/
theorem advanceStatus_notfound_resets_witness :
    advanceStatus "🎥 Video | ✅ **Bogus** | ★★★☆☆" =
      "🎥 Video | 📥 **Saved/Unprocessed** | ★★★☆☆" := by
  have h := advanceStatus_notfound_resets "🎥 Video | ✅ **Bogus** | ★★★☆☆" (by decide)
  rw [h]; decide

/-! ## C6: encoding for non-note types -/

theorem starString_of_le {n : Nat} (h : n ≤ 5) :
    starString n = some (if n = 0 then "⚪ Not Rated"
      else (List.replicate n '★' ++ List.replicate (5 - n) '☆').asString) := by
  by_cases h0 : n = 0
  · simp [starString, h0]
  · have h1 : ¬((n : Int) < 0) := by omega
    have h2 : ¬((5 : Int) - (n : Int) < 0) := by omega
    have h3 : ((n : Int)).toNat = n := by omega
    have h4 : ((5 : Int) - (n : Int)).toNat = 5 - n := by omega
    simp [starString, h0, jsRepeat, h1, h2, h3, h4]

/-- C6: for every record whose type is not `plain-note`, the encoded
header line is `### [title](target)` when the target is non-empty and
`### title` (no link syntax) when it is empty, and the detail line is
`<type icon> <type label> | <status icon> **<status label>** | <rating glyphs>`
with `n` filled and `5 - n` empty stars (or the unrated glyph text). -/
theorem buildLines_generic (resolve : String → Option String) (r : Ref)
    (hty : r.type ≠ "plain-note") (hst : r.stars ≤ 5) :
    buildLines resolve r = some (
      (if r.url = "" then "### " ++ r.title
       else "### " ++ ("[" ++ r.title ++ "](" ++ r.url ++ ")")),
      (getTypeInfo r.type).icon ++ " " ++ (getTypeInfo r.type).label ++ " | " ++
      (getStatusInfo r.status).icon ++ " **" ++ (getStatusInfo r.status).label ++ "** | " ++
      (if r.stars = 0 then "⚪ Not Rated"
       else (List.replicate r.stars '★' ++ List.replicate (5 - r.stars) '☆').asString)) := by
  have hlink : linkOf resolve r =
      (if r.url = "" then r.title else "[" ++ r.title ++ "](" ++ r.url ++ ")") := by
    unfold linkOf
    rw [if_neg (by intro hc; exact hty hc.1)]
    by_cases hu : r.url = "" <;> simp [hu]
  simp [buildLines, detailStr, starString_of_le hst, hlink]
  by_cases hu : r.url = "" <;> simp [hu]

/-- C6 witness: the concrete scenario from the specification. -/
theorem buildLines_generic_witness :
    buildLines (fun _ => none) ⟨"video", "Intro to Rust", "https://youtu.be/abc", "in-progress", 3⟩ =
      some ("### [Intro to Rust](https://youtu.be/abc)",
            "🎥 Video | 🔄 **In Progress** | ★★★☆☆") := by
  have h := buildLines_generic (fun _ => none)
    ⟨"video", "Intro to Rust", "https://youtu.be/abc", "in-progress", 3⟩ (by decide) (by decide)
  rw [h]; decide

/-! ## C10: unclamped rating decode and throwing re-encode -/

/-- C10: the rating decoder counts filled stars with no upper clamp
(a hand-edited field with `k` filled stars decodes to rating `k` for
every `k`); for a rating above 5 the glyph encoder `starString`
evaluates `'☆'.repeat(5 - n)` with a negative count and throws
(`none`), so re-encoding any record carrying such a rating throws
rather than producing a line. -/
theorem rating_unclamped_reencode_throws :
    (∀ k, (List.replicate k '★').count '★' = k) ∧
    (∀ k, (parsePrefill ("a | b | c | " ++ (List.replicate k '★').asString)).stars = k) ∧
    (∀ n, 5 < n → starString n = none) ∧
    (∀ (resolve : String → Option String) (r : Ref), 5 < r.stars →
      buildLines resolve r = none) := by
  have hcount : ∀ k, (List.replicate k '★').count '★' = k := by
    intro k; simp [List.count_replicate]
  have hnone : ∀ n, 5 < n → starString n = none := by
    intro n hn
    have h0 : ¬(n = 0) := by omega
    have h2 : (5 : Int) - (n : Int) < 0 := by omega
    simp [starString, h0, jsRepeat, h2]
  refine ⟨hcount, ?_, hnone, ?_⟩
  · intro k
    have htl : ("a | b | c | " ++ (List.replicate k '★').asString).toList =
        ['a', ' '] ++ '|' :: (' ' :: 'b' :: ' ' :: '|' :: (' ' :: 'c' :: ' ' :: '|' ::
          (' ' :: List.replicate k '★'))) := by
      rw [toList_append, toList_asString]; rfl
    have hnm : '|' ∉ ' ' :: List.replicate k '★' := by
      intro hm
      rcases List.mem_cons.1 hm with hh | hh
      · exact absurd hh (by decide)
      · exact absurd (List.eq_of_mem_replicate hh) (by decide)
    have e1 : splitOnC '|'
          ('a' :: ' ' :: '|' :: ' ' :: 'b' :: ' ' :: '|' :: ' ' :: 'c' :: ' ' :: '|' ::
            ' ' :: List.replicate k '★') =
        ['a', ' '] :: splitOnC '|'
          (' ' :: 'b' :: ' ' :: '|' :: ' ' :: 'c' :: ' ' :: '|' :: ' ' :: List.replicate k '★') :=
      splitOnC_sep '|' ['a', ' '] _ (by decide)
    have e2 : splitOnC '|'
          (' ' :: 'b' :: ' ' :: '|' :: ' ' :: 'c' :: ' ' :: '|' :: ' ' :: List.replicate k '★') =
        [' ', 'b', ' '] :: splitOnC '|' (' ' :: 'c' :: ' ' :: '|' :: ' ' :: List.replicate k '★') :=
      splitOnC_sep '|' [' ', 'b', ' '] _ (by decide)
    have e3 : splitOnC '|' (' ' :: 'c' :: ' ' :: '|' :: ' ' :: List.replicate k '★') =
        [' ', 'c', ' '] :: splitOnC '|' (' ' :: List.replicate k '★') :=
      splitOnC_sep '|' [' ', 'c', ' '] _ (by decide)
    have e4 : splitOnC '|' (' ' :: List.replicate k '★') = [' ' :: List.replicate k '★'] :=
      splitOnC_single _ _ hnm
    have hsp : splitOnC '|' (("a | b | c | " ++ (List.replicate k '★').asString).toList) =
        [['a', ' '], [' ', 'b', ' '], [' ', 'c', ' '], ' ' :: List.replicate k '★'] := by
      rw [htl]
      show splitOnC '|'
          ('a' :: ' ' :: '|' :: ' ' :: 'b' :: ' ' :: '|' :: ' ' :: 'c' :: ' ' :: '|' ::
            ' ' :: List.replicate k '★') = _
      rw [e1, e2, e3, e4]
    have hdrop : List.dropWhile isJsSpace (List.replicate k '★') = List.replicate k '★' := by
      cases k with
      | zero => rfl
      | succ m => rw [List.replicate_succ, List.dropWhile_cons, if_neg (by decide)]
    have htrim : trimL (' ' :: List.replicate k '★') = List.replicate k '★' := by
      unfold trimL
      rw [List.dropWhile_cons, if_pos (by decide), hdrop, List.reverse_replicate, hdrop,
        List.reverse_replicate]
    show decRt (((splitOnC '|' _).map trimL)) = k
    rw [hsp]
    simp [decRt, htrim, hcount]
  · intro resolve r hr
    have := hnone r.stars hr
    simp [buildLines, detailStr, this]

/-- C10 witness at rating 7 (decode side) and 9 (encode side). -/
theorem rating_unclamped_reencode_throws_witness :
    (List.replicate 7 '★').count '★' = 7 ∧
    (parsePrefill ("a | b | c | " ++ (List.replicate 7 '★').asString)).stars = 7 ∧
    starString 6 = none ∧
    buildLines (fun _ => none) ⟨"web-page", "t", "u", "saved", 9⟩ = none :=
  ⟨rating_unclamped_reencode_throws.1 7, rating_unclamped_reencode_throws.2.1 7,
   rating_unclamped_reencode_throws.2.2.1 6 (by decide),
   rating_unclamped_reencode_throws.2.2.2 (fun _ => none) ⟨"web-page", "t", "u", "saved", 9⟩
     (by decide)⟩

/-! ## C7: decoding is total, with per-field fallbacks -/

theorem parse_type_eq (l : List Char) :
    (parsePrefillL l).type = decTy ((splitOnC '|' l).map trimL) := rfl

theorem parse_status_eq (l : List Char) :
    (parsePrefillL l).status = decSt ((splitOnC '|' l).map trimL) := rfl

theorem parse_stars_eq (l : List Char) :
    (parsePrefillL l).stars = decRt ((splitOnC '|' l).map trimL) := rfl

theorem decTy_mem (parts : List (List Char)) : decTy parts ∈ typeKeys := by
  unfold decTy
  split
  · split
    · split
      · next o hfind =>
        exact List.mem_map_of_mem (·.key) (List.mem_of_find?_eq_some hfind)
      · decide
    · decide
  · decide

theorem decSt_mem (parts : List (List Char)) : decSt parts ∈ statusKeys := by
  unfold decSt
  split
  · split
    · split
      · next o hfind =>
        exact List.mem_map_of_mem (·.key) (List.mem_of_find?_eq_some hfind)
      · decide
    · decide
  · decide

/-- C7: decoding is total — for every input line the decoded type and
status are always well-defined catalog keys — and each field falls
back independently: when no catalog icon matches the leading token of
the type field the type is the first type entry (`plain-note`); when
no emphasis-wrapped catalog label occurs in the status field the
status is the first status entry (`saved`); when the rating field
contains zero filled-star glyphs (e.g. the literal `Not Rated` text)
the rating is 0. -/
theorem decode_total_with_fallbacks (line : String) :
    ((parsePrefill line).type ∈ typeKeys ∧ (parsePrefill line).status ∈ statusKeys) ∧
    ((∀ tp, ((splitOnC '|' line.toList).map trimL)[1]? = some tp →
        ∀ o ∈ TYPE_OPTIONS, firstTok tp ≠ some o.icon.toList) →
      (parsePrefill line).type = "plain-note") ∧
    ((∀ sp, ((splitOnC '|' line.toList).map trimL)[2]? = some sp →
        ∀ o ∈ STATUS_ORDER, scanFor starStarAt sp ≠ some o.label.toList) →
      (parsePrefill line).status = "saved") ∧
    (∀ rp, ((splitOnC '|' line.toList).map trimL)[3]? = some rp →
      rp.count '★' = 0 → (parsePrefill line).stars = 0) := by
  refine ⟨⟨decTy_mem _, decSt_mem _⟩, ?_, ?_, ?_⟩
  · intro h
    rw [parsePrefill, parse_type_eq]
    unfold decTy
    split
    · next tp htp =>
      split
      · next tok htok =>
        split
        · next o hfind =>
          have hicon : o.icon.toList = tok := by
            have := List.find?_some hfind
            simpa using this
          exact absurd (hicon ▸ htok) (h tp htp o (List.mem_of_find?_eq_some hfind))
        · rfl
      · rfl
    · rfl
  · intro h
    rw [parsePrefill, parse_status_eq]
    unfold decSt
    split
    · next sp hsp =>
      split
      · next lab hlab =>
        split
        · next o hfind =>
          have hlabel : o.label.toList = lab := by
            have := List.find?_some hfind
            simpa using this
          exact absurd (hlabel ▸ hlab) (h sp hsp o (List.mem_of_find?_eq_some hfind))
        · rfl
      · rfl
    · rfl
  · intro rp hrp hcount
    rw [parsePrefill, parse_stars_eq]
    unfold decRt
    split
    · next rp2 hrp2 =>
      rw [hrp] at hrp2
      cases hrp2
      exact hcount
    · rfl

/-- C7 witness: a line whose type icon, status label and rating field
all fail to parse decodes to the first type entry, the first status
entry and rating 0. -/
theorem decode_total_with_fallbacks_witness :
    (parsePrefill "### junk | 💀 Junk | no label here | Not Rated").type = "plain-note" ∧
    (parsePrefill "### junk | 💀 Junk | no label here | Not Rated").status = "saved" ∧
    (parsePrefill "### junk | 💀 Junk | no label here | Not Rated").stars = 0 :=
  ⟨(decode_total_with_fallbacks "### junk | 💀 Junk | no label here | Not Rated").2.1
     (by decide),
   (decode_total_with_fallbacks "### junk | 💀 Junk | no label here | Not Rated").2.2.1
     (by decide),
   (decode_total_with_fallbacks "### junk | 💀 Junk | no label here | Not Rated").2.2.2
     ("Not Rated".toList) (by decide) (by decide)⟩

/-! ## C3 / C4: the cyclic status advance on well-formed detail lines -/

set_option maxHeartbeats 12000000 in
theorem advance_detail_grid : ∀ t ∈ TYPE_OPTIONS, ∀ s ∈ STATUS_ORDER, ∀ n, n ≤ 5 →
    advanceStatus (mkDetail t s n) = mkDetail t (nextStatus s) n := by decide

theorem nextStatus_mem : ∀ s ∈ STATUS_ORDER, nextStatus s ∈ STATUS_ORDER := by decide

theorem nextStatus_seven : ∀ s ∈ STATUS_ORDER,
    nextStatus (nextStatus (nextStatus (nextStatus (nextStatus (nextStatus (nextStatus s)))))) =
      s := by decide

/-- C3: on every well-formed detail line (any catalog type, any
catalog status, any rating in [0,5]) `advanceStatus` rewrites only the
status sub-span to the next status of the fixed 7-entry order, leaving
the type field, the rating field and all separators byte-for-byte
unchanged: the result is exactly the well-formed detail line with the
same type and rating and the successor status. -/
theorem advanceStatus_frame (t s : CatEntry) (n : Nat)
    (ht : t ∈ TYPE_OPTIONS) (hs : s ∈ STATUS_ORDER) (hn : n ≤ 5) :
    advanceStatus (mkDetail t s n) = mkDetail t (nextStatus s) n :=
  advance_detail_grid t ht s hs n hn

/-- C3 witness: the concrete scenario from the specification. -/
theorem advanceStatus_frame_witness :
    advanceStatus "🎥 Video | ✅ **Completed** | ★★★☆☆" =
      "🎥 Video | 🤔 **Maybe Useful** | ★★★☆☆" := by
  have h := advanceStatus_frame ⟨"video", "Video", "🎥"⟩ ⟨"completed", "Completed", "✅"⟩ 3
    (by decide) (by decide) (by decide)
  have e1 : mkDetail ⟨"video", "Video", "🎥"⟩ ⟨"completed", "Completed", "✅"⟩ 3 =
      "🎥 Video | ✅ **Completed** | ★★★☆☆" := by decide
  have e2 : mkDetail ⟨"video", "Video", "🎥"⟩ (nextStatus ⟨"completed", "Completed", "✅"⟩) 3 =
      "🎥 Video | 🤔 **Maybe Useful** | ★★★☆☆" := by decide
  rw [e1, e2] at h
  exact h

/-- C4: applying `advanceStatus` 7 times (the size of the status set)
to a well-formed detail line returns the original line — status field
and every other character included. -/
theorem advanceStatus_seven_cycle (t s : CatEntry) (n : Nat)
    (ht : t ∈ TYPE_OPTIONS) (hs : s ∈ STATUS_ORDER) (hn : n ≤ 5) :
    advanceStatus^[7] (mkDetail t s n) = mkDetail t s n := by
  have m1 := nextStatus_mem s hs
  have m2 := nextStatus_mem _ m1
  have m3 := nextStatus_mem _ m2
  have m4 := nextStatus_mem _ m3
  have m5 := nextStatus_mem _ m4
  have m6 := nextStatus_mem _ m5
  show advanceStatus (advanceStatus (advanceStatus (advanceStatus (advanceStatus
    (advanceStatus (advanceStatus (mkDetail t s n))))))) = mkDetail t s n
  rw [advance_detail_grid t ht s hs n hn,
    advance_detail_grid t ht _ m1 n hn,
    advance_detail_grid t ht _ m2 n hn,
    advance_detail_grid t ht _ m3 n hn,
    advance_detail_grid t ht _ m4 n hn,
    advance_detail_grid t ht _ m5 n hn,
    advance_detail_grid t ht _ m6 n hn,
    nextStatus_seven s hs]

/-- C4 witness at the concrete completed-status line. -/
theorem advanceStatus_seven_cycle_witness :
    advanceStatus^[7] "🎥 Video | ✅ **Completed** | ★★★☆☆" =
      "🎥 Video | ✅ **Completed** | ★★★☆☆" := by
  have h := advanceStatus_seven_cycle ⟨"video", "Video", "🎥"⟩ ⟨"completed", "Completed", "✅"⟩ 3
    (by decide) (by decide) (by decide)
  have e1 : mkDetail ⟨"video", "Video", "🎥"⟩ ⟨"completed", "Completed", "✅"⟩ 3 =
      "🎥 Video | ✅ **Completed** | ★★★☆☆" := by decide
  rw [e1] at h
  exact h

/-! ## C1: decode ∘ encode round trip -/

theorem decTy_cons_irrel (p0 : List Char) (rest : List (List Char)) :
    decTy (p0 :: rest) = decTy ([] :: rest) := rfl

theorem decSt_cons_irrel (p0 : List Char) (rest : List (List Char)) :
    decSt (p0 :: rest) = decSt ([] :: rest) := rfl

theorem decRt_cons_irrel (p0 : List Char) (rest : List (List Char)) :
    decRt (p0 :: rest) = decRt ([] :: rest) := rfl

set_option maxHeartbeats 8000000 in
theorem decode_detail_grid : ∀ ty ∈ typeKeys, ∀ st ∈ statusKeys, ∀ n, n ≤ 5 →
    decTy ([] :: (splitOnC '|' (' ' :: ((detailStr ty st n).getD "").toList)).map trimL) = ty ∧
    decSt ([] :: (splitOnC '|' (' ' :: ((detailStr ty st n).getD "").toList)).map trimL) = st ∧
    decRt ([] :: (splitOnC '|' (' ' :: ((detailStr ty st n).getD "").toList)).map trimL) = n := by
  decide

/-- C1 counterexample.  The record
`{type: video, title: "a|b", target: "", status: completed, rating: 2}`
is valid in the claim's sense (catalog type and status, rating in
[0,5]), but the `|` in its title shifts the `|`-separated field
indices of the decoder, so decoding the encoded span reproduces none
of type, status, rating. -/
theorem roundtrip_cex :
    buildLines (fun _ => none) ⟨"video", "a|b", "", "completed", 2⟩ =
      some ("### a|b", "🎥 Video | ✅ **Completed** | ★★☆☆☆") ∧
    (decodeRecord "### a|b" "🎥 Video | ✅ **Completed** | ★★☆☆☆").type ≠ "video" ∧
    (decodeRecord "### a|b" "🎥 Video | ✅ **Completed** | ★★☆☆☆").status ≠ "completed" ∧
    (decodeRecord "### a|b" "🎥 Video | ✅ **Completed** | ★★☆☆☆").stars ≠ 2 := by decide

/-- C1 amended: for every valid record (catalog type key, catalog
status key, rating in [0,5]) whose encoded HEADER line contains no `|`
character (equivalently: title and target contain no `|` and the
vault long-form `[[path|title]]` link is not produced), decoding the
two-line span produced by the encoder reproduces the record's type,
status and rating exactly. -/
theorem roundtrip_pipefree (resolve : String → Option String) (r : Ref) (h d : String)
    (hty : r.type ∈ typeKeys) (hst : r.status ∈ statusKeys) (hn : r.stars ≤ 5)
    (hbuild : buildLines resolve r = some (h, d)) (hpipe : '|' ∉ h.toList) :
    (decodeRecord h d).type = r.type ∧ (decodeRecord h d).status = r.status ∧
    (decodeRecord h d).stars = r.stars := by
  obtain ⟨dl, hdl, hpair⟩ := Option.map_eq_some'.1 hbuild
  have hd : d = dl := by
    have := congrArg Prod.snd hpair
    simpa using this.symm
  subst hd
  have hdl' : d = (detailStr r.type r.status r.stars).getD "" := by rw [hdl]; rfl
  have hjoin : (h ++ " | " ++ d).toList = (h.toList ++ [' ']) ++ '|' :: (' ' :: d.toList) := by
    rw [toList_append, toList_append]
    have hmid : (" | " : String).toList = [' ', '|', ' '] := rfl
    rw [hmid]
    simp
  have hnm : '|' ∉ h.toList ++ [' '] := by
    intro hm
    rcases List.mem_append.1 hm with hm | hm
    · exact hpipe hm
    · exact absurd (List.mem_singleton.1 hm) (by decide)
  have hsplit : (splitOnC '|' ((h ++ " | " ++ d).toList)).map trimL =
      trimL (h.toList ++ [' ']) ::
        (splitOnC '|' (' ' :: d.toList)).map trimL := by
    rw [hjoin, splitOnC_sep '|' _ _ hnm]
    rfl
  have hgrid := decode_detail_grid r.type hty r.status hst r.stars hn
  rw [← hdl'] at hgrid
  refine ⟨?_, ?_, ?_⟩
  · show (parsePrefillL ((h ++ " | " ++ d).toList)).type = r.type
    rw [parse_type_eq, hsplit, decTy_cons_irrel]
    exact hgrid.1
  · show (parsePrefillL ((h ++ " | " ++ d).toList)).status = r.status
    rw [parse_status_eq, hsplit, decSt_cons_irrel]
    exact hgrid.2.1
  · show (parsePrefillL ((h ++ " | " ++ d).toList)).stars = r.stars
    rw [parse_stars_eq, hsplit, decRt_cons_irrel]
    exact hgrid.2.2

/-- C1 witness: the concrete scenario from the specification
round-trips type, status and rating. -/
theorem roundtrip_pipefree_witness :
    (decodeRecord "### [Intro to Rust](https://youtu.be/abc)"
        "🎥 Video | 🔄 **In Progress** | ★★★☆☆").type = "video" ∧
    (decodeRecord "### [Intro to Rust](https://youtu.be/abc)"
        "🎥 Video | 🔄 **In Progress** | ★★★☆☆").status = "in-progress" ∧
    (decodeRecord "### [Intro to Rust](https://youtu.be/abc)"
        "🎥 Video | 🔄 **In Progress** | ★★★☆☆").stars = 3 :=
  roundtrip_pipefree (fun _ => none)
    ⟨"video", "Intro to Rust", "https://youtu.be/abc", "in-progress", 3⟩
    "### [Intro to Rust](https://youtu.be/abc)" "🎥 Video | 🔄 **In Progress** | ★★★☆☆"
    (by decide) (by decide) (by decide) (by decide) (by decide)

/-! ## C8 / C9: insertion into the records section -/

theorem findIdx?_heading (pre : List String) (x : String) (rest : List String)
    (hpre : ∀ l ∈ pre, hasRefHeading l = false) (hx : hasRefHeading x = true) :
    (pre ++ x :: rest).findIdx? hasRefHeading = some pre.length := by
  rw [List.findIdx?_append, List.findIdx?_eq_none_iff.2 hpre, List.findIdx?_cons, if_pos hx]
  simp

theorem getTypeInfo_mem (k : String) : getTypeInfo k ∈ TYPE_OPTIONS := by
  cases hf : TYPE_OPTIONS.find? (fun t => t.key == k) with
  | none => rw [getTypeInfo, hf]; decide
  | some o =>
    rw [getTypeInfo, hf]
    exact List.mem_of_find?_eq_some hf

theorem detail_shape (ti : CatEntry) (hti : ti ∈ TYPE_OPTIONS) (rest : String) :
    jsStartsWith (ti.icon ++ rest) "###" = false ∧ jsTrim (ti.icon ++ rest) ≠ "" := by
  simp only [TYPE_OPTIONS, List.mem_cons, List.not_mem_nil, or_false] at hti
  rcases hti with h | h | h | h | h | h | h <;> subst h <;>
    refine ⟨by simp [jsStartsWith, toList_append, List.isPrefixOf], ?_⟩ <;>
    · intro hemp
      rw [jsTrim, toList_append] at hemp
      exact trimL_cons_ne_nil _ (by decide) ((asString_eq_empty_iff _).1 hemp)

theorem buildLines_shape (resolve : String → Option String) (r : Ref) (h d : String)
    (hb : buildLines resolve r = some (h, d)) :
    jsStartsWith h "###" = true ∧ jsStartsWith d "###" = false ∧ jsTrim d ≠ "" := by
  obtain ⟨dl, hdl, hpair⟩ := Option.map_eq_some'.1 hb
  have hh : h = "### " ++ linkOf resolve r := by
    have := congrArg Prod.fst hpair
    simpa using this.symm
  have hd : d = dl := by
    have := congrArg Prod.snd hpair
    simpa using this.symm
  obtain ⟨stars, hstars, hdval⟩ := Option.map_eq_some'.1 hdl
  have hd2 : d = (getTypeInfo r.type).icon ++
      (" " ++ ((getTypeInfo r.type).label ++ (" | " ++ ((getStatusInfo r.status).icon ++
        (" **" ++ ((getStatusInfo r.status).label ++ ("** | " ++ stars))))))) := by
    rw [hd, ← hdval]
    simp [String.append_assoc]
  have hshape := detail_shape (getTypeInfo r.type) (getTypeInfo_mem r.type)
    (" " ++ ((getTypeInfo r.type).label ++ (" | " ++ ((getStatusInfo r.status).icon ++
      (" **" ++ ((getStatusInfo r.status).label ++ ("** | " ++ stars)))))))
  refine ⟨?_, hd2 ▸ hshape.1, hd2 ▸ hshape.2⟩
  rw [hh, jsStartsWith, toList_append]
  have h4 : ("### " : String).toList = '#' :: '#' :: '#' :: [' '] := rfl
  rw [h4]
  simp [List.isPrefixOf]

theorem countSkip_stop (post : List String)
    (h : ∀ hd, post.head? = some hd → jsStartsWith hd "###" = false) : countSkip post = 0 := by
  cases post with
  | nil => rfl
  | cons a rest =>
    have ha := h a rfl
    unfold countSkip
    rw [ha]
    simp

theorem countSkip_pair (h d : String) (rest : List String) (hh : jsStartsWith h "###" = true)
    (hd : jsStartsWith d "###" = false) (ht : jsTrim d ≠ "") :
    countSkip (h :: d :: rest) = 2 + countSkip rest := by
  simp [countSkip, hh, hd, ht]

theorem insertLines_at_section (resolve : String → Option String) (pre rest : List String)
    (r : Ref) (h d : String)
    (hpre : ∀ l ∈ pre, hasRefHeading l = false)
    (hb : buildLines resolve r = some (h, d)) :
    insertLines resolve (pre ++ "## References" :: rest) r =
      some (pre ++ "## References" ::
        (rest.take (countSkip rest) ++ h :: d :: rest.drop (countSkip rest))) := by
  have hany : (pre ++ "## References" :: rest).any hasRefHeading = true :=
    List.any_eq_true.2 ⟨"## References", List.mem_append_right _ (List.mem_cons_self _ _),
      by decide⟩
  have hfind := findIdx?_heading pre "## References" rest hpre (by decide)
  have hsplit : pre ++ "## References" :: rest = (pre ++ ["## References"]) ++ rest := by simp
  have hlen : (pre ++ ["## References"]).length = pre.length + 1 := by simp
  have htonat : (((pre.length : Int)) + 1).toNat = pre.length + 1 := by omega
  have hdrop : (pre ++ "## References" :: rest).drop (pre.length + 1) = rest := by
    rw [hsplit]
    exact List.drop_left' hlen
  have htake : (pre ++ "## References" :: rest).take (pre.length + 1 + countSkip rest) =
      (pre ++ ["## References"]) ++ rest.take (countSkip rest) := by
    rw [hsplit, ← hlen]
    exact List.take_append _
  have hdrop2 : (pre ++ "## References" :: rest).drop (pre.length + 1 + countSkip rest) =
      rest.drop (countSkip rest) := by
    rw [hsplit, ← hlen]
    exact List.drop_append _
  unfold insertLines
  rw [hb, Option.map_some']
  rw [if_pos hany]
  simp only [hfind, htonat, hdrop, htake, hdrop2]
  simp

/-- C8 counterexample.  On the one-line document `["a"]` (no records
section, no trailing blank line) the claim predicts the appended
heading is preceded by a blank line; the source appends
`'\n## References\n'` to the document text, which makes `"a"` — not a
blank line — the heading's predecessor. -/
theorem insert_heal_cex :
    insertLines (fun _ => none) ["a"] ⟨"video", "T", "", "saved", 0⟩ =
      some ["a", "## References", "### T", "🎥 Video | 📥 **Saved/Unprocessed** | ⚪ Not Rated",
        ""] ∧
    ["a", "## References", "### T", "🎥 Video | 📥 **Saved/Unprocessed** | ⚪ Not Rated",
      ""].getD 1 "" = "## References" ∧
    ["a", "## References", "### T", "🎥 Video | 📥 **Saved/Unprocessed** | ⚪ Not Rated",
      ""].getD 0 "" ≠ "" := by decide

/-- C8 amended: when no line of the document contains the records
heading, `insertRecord` auto-heals (never an error): it appends the
heading as a new line at the document end followed by one empty line —
the heading is preceded by a blank line only when the document already
ends with one — and then splices the encoded two-line span immediately
after that heading. -/
theorem insert_heal_appends (resolve : String → Option String) (lines : List String) (r : Ref)
    (h d : String)
    (hpre : ∀ l ∈ lines, hasRefHeading l = false)
    (hb : buildLines resolve r = some (h, d)) :
    insertLines resolve lines r = some (lines ++ ["## References", h, d, ""]) := by
  have hany : lines.any hasRefHeading = false :=
    List.any_eq_false.2 (fun x hx => by rw [hpre x hx]; exact Bool.noConfusion)
  have hfind := findIdx?_heading lines "## References" [""] hpre (by decide)
  have hsplit : lines ++ ["## References", ""] = (lines ++ ["## References"]) ++ [""] := by simp
  have hlen : (lines ++ ["## References"]).length = lines.length + 1 := by simp
  have htonat : (((lines.length : Int)) + 1).toNat = lines.length + 1 := by omega
  have hdrop : (lines ++ ["## References", ""]).drop (lines.length + 1) = [""] := by
    rw [hsplit]
    exact List.drop_left' hlen
  have htake : (lines ++ ["## References", ""]).take (lines.length + 1) =
      lines ++ ["## References"] := by
    rw [hsplit]
    exact List.take_left' hlen
  have hskip : countSkip [""] = 0 := by decide
  unfold insertLines
  rw [hb, Option.map_some']
  rw [if_neg (fun hc : lines.any hasRefHeading = true =>
    Bool.noConfusion (hany ▸ hc))]
  simp only [hfind, htonat, hdrop, hskip, Nat.add_zero, htake]
  simp

/-- C8 amended witness: healing on the concrete one-line document
`["x"]`. -/
theorem insert_heal_appends_witness :
    insertLines (fun _ => none) ["x"] ⟨"web-page", "W", "http://w", "skimmed", 1⟩ =
      some ["x", "## References", "### [W](http://w)", "🌐 Web Page | 🔍 **Skimmed** | ★☆☆☆☆",
        ""] := by
  have h := insert_heal_appends (fun _ => none) ["x"] ⟨"web-page", "W", "http://w", "skimmed", 1⟩
    "### [W](http://w)" "🌐 Web Page | 🔍 **Skimmed** | ★☆☆☆☆" (by decide) (by decide)
  exact h

/-- C9: starting from a document whose records section is empty (the
heading is present; the line after it, if any, is not a record
header), inserting `r1` then `r2` places their spans in that order
immediately under the heading, and inserting `r3` afterwards appends
its span right after `r2`'s — new records always go immediately after
the last existing record span, never interleaved, and all pre-existing
lines keep their relative order. -/
theorem insert_append_order (resolve : String → Option String) (pre post : List String)
    (r1 r2 r3 : Ref) (h1 d1 h2 d2 h3 d3 : String)
    (hpre : ∀ l ∈ pre, hasRefHeading l = false)
    (hpost : ∀ hd, post.head? = some hd → jsStartsWith hd "###" = false)
    (hb1 : buildLines resolve r1 = some (h1, d1))
    (hb2 : buildLines resolve r2 = some (h2, d2))
    (hb3 : buildLines resolve r3 = some (h3, d3)) :
    insertLines resolve (pre ++ "## References" :: post) r1 =
      some (pre ++ "## References" :: h1 :: d1 :: post) ∧
    insertLines resolve (pre ++ "## References" :: h1 :: d1 :: post) r2 =
      some (pre ++ "## References" :: h1 :: d1 :: h2 :: d2 :: post) ∧
    insertLines resolve (pre ++ "## References" :: h1 :: d1 :: h2 :: d2 :: post) r3 =
      some (pre ++ "## References" :: h1 :: d1 :: h2 :: d2 :: h3 :: d3 :: post) := by
  obtain ⟨hsh1, hsd1, htd1⟩ := buildLines_shape resolve r1 h1 d1 hb1
  obtain ⟨hsh2, hsd2, htd2⟩ := buildLines_shape resolve r2 h2 d2 hb2
  have hskip0 : countSkip post = 0 := countSkip_stop post hpost
  have hskip2 : countSkip (h1 :: d1 :: post) = 2 := by
    rw [countSkip_pair h1 d1 post hsh1 hsd1 htd1, hskip0]
  have hskip4 : countSkip (h1 :: d1 :: h2 :: d2 :: post) = 4 := by
    rw [countSkip_pair h1 d1 _ hsh1 hsd1 htd1, countSkip_pair h2 d2 post hsh2 hsd2 htd2, hskip0]
  refine ⟨?_, ?_, ?_⟩
  · have := insertLines_at_section resolve pre post r1 h1 d1 hpre hb1
    rw [hskip0] at this
    simpa using this
  · have := insertLines_at_section resolve pre (h1 :: d1 :: post) r2 h2 d2 hpre hb2
    rw [hskip2] at this
    simpa using this
  · have := insertLines_at_section resolve pre (h1 :: d1 :: h2 :: d2 :: post) r3 h3 d3 hpre hb3
    rw [hskip4] at this
    simpa using this

/-- C9 witness: three concrete insertions under a concrete section. -/
theorem insert_append_order_witness :
    insertLines (fun _ => none) ["p", "## References", "q"]
        ⟨"video", "A", "", "saved", 0⟩ =
      some ["p", "## References", "### A", "🎥 Video | 📥 **Saved/Unprocessed** | ⚪ Not Rated",
        "q"] ∧
    insertLines (fun _ => none)
        ["p", "## References", "### A", "🎥 Video | 📥 **Saved/Unprocessed** | ⚪ Not Rated", "q"]
        ⟨"course", "B", "", "skimmed", 1⟩ =
      some ["p", "## References", "### A", "🎥 Video | 📥 **Saved/Unprocessed** | ⚪ Not Rated",
        "### B", "🎓 Course | 🔍 **Skimmed** | ★☆☆☆☆", "q"] ∧
    insertLines (fun _ => none)
        ["p", "## References", "### A", "🎥 Video | 📥 **Saved/Unprocessed** | ⚪ Not Rated",
          "### B", "🎓 Course | 🔍 **Skimmed** | ★☆☆☆☆", "q"]
        ⟨"other", "C", "", "completed", 5⟩ =
      some ["p", "## References", "### A", "🎥 Video | 📥 **Saved/Unprocessed** | ⚪ Not Rated",
        "### B", "🎓 Course | 🔍 **Skimmed** | ★☆☆☆☆", "### C",
        "📦 Other | ✅ **Completed** | ★★★★★", "q"] := by
  have h := insert_append_order (fun _ => none) ["p"] ["q"]
    ⟨"video", "A", "", "saved", 0⟩ ⟨"course", "B", "", "skimmed", 1⟩
    ⟨"other", "C", "", "completed", 5⟩
    "### A" "🎥 Video | 📥 **Saved/Unprocessed** | ⚪ Not Rated"
    "### B" "🎓 Course | 🔍 **Skimmed** | ★☆☆☆☆"
    "### C" "📦 Other | ✅ **Completed** | ★★★★★"
    (by decide) (by decide) (by decide) (by decide) (by decide)
  exact ⟨h.1, h.2.1, h.2.2⟩

end Refero
